import Mathlib

/-! Verification of mcp-monitor: the log-tail tool (`logs/tool.go`) and the GPU tool
(`nvidia/tool.go`).

A shallow embedding of the two tool handlers.  Everything the handlers reach outside the
process (the file system, the tailing library, the `journalctl` command, the regular
expression engine, NVML) is a field of a `World` record; the handlers are pure functions of
the world and of the request arguments.  The log handler yields how the call ends (a tool
result, or a runtime panic) together with the list of source operations it performed, in
order.

Go strings are modelled by `String`, Go's `int` by `Int` (64-bit range where a conversion can
leave it), a channel closed by its sender by the list of the values received from it, and the
JSON text of a result by the value that is serialised.  Deferred clean-up calls
(`tailer.Cleanup`, `nvml.Shutdown`) have no effect on the results and are left out.
-/

namespace logs

/-! ## Go values -/

/-- Smallest value of Go's `int` on a 64-bit target. -/
def minInt : Int := -(2 ^ 63)

/-- Largest value of Go's `int` on a 64-bit target. -/
def maxInt : Int := 2 ^ 63 - 1

/-- A Go floating-point value: a finite value `mant * 2 ^ exp`, an infinity, or NaN. -/
inductive GoFloat where
  | finite (mant : Int) (exp : Int)
  | inf (negative : Bool)
  | nan
  deriving DecidableEq, Repr

/-- Truncation toward zero of a finite float, as an unbounded integer. -/
def GoFloat.trunc : GoFloat → Option Int
  | .finite m e => if 0 ≤ e then some (m * 2 ^ e.toNat) else some (Int.tdiv m (2 ^ (-e).toNat))
  | _ => none

/-- The float holds exactly the integer `n`. -/
def GoFloat.isInteger (t : GoFloat) (n : Int) : Prop :=
  match t with
  | .finite m e => if 0 ≤ e then m * 2 ^ e.toNat = n else m = n * 2 ^ (-e).toNat
  | _ => False

/-- The float is a finite value below one. -/
def GoFloat.belowOne (t : GoFloat) : Prop :=
  match t with
  | .finite m e => if 0 ≤ e then m * 2 ^ e.toNat < 1 else m < 2 ^ (-e).toNat
  | _ => False

/-- The conversion `int(t)` of a float.  A value whose truncation fits `int` converts to that
truncation; for any other value Go leaves the result to the implementation, which is the
parameter `undef`. -/
def floatToInt (undef : GoFloat → Int) (t : GoFloat) : Int :=
  match t.trunc with
  | some z => if minInt ≤ z ∧ z ≤ maxInt then z else undef t
  | none => undef t

/-- A dynamically typed value of the request's argument map (`interface{}`). -/
inductive ArgValue where
  | float64 (t : GoFloat)
  | float32 (t : GoFloat)
  | int (t : Int)
  | int64 (t : Int)
  | string (t : String)
  | other
  deriving DecidableEq, Repr

/-- The argument map `request.Params.Arguments`: `args k = none` when the key is absent. -/
abbrev Arguments := String → Option ArgValue

/-- The type assertion `x.(string)` with the failure ignored: the string, or `""` when the
key is absent or holds a value of another type. -/
def asString : Option ArgValue → String
  | some (.string s) => s
  | _ => ""

/-! ## Library functions -/

/-- Whether the byte is an ASCII decimal digit. -/
def isDigit (c : Char) : Bool := decide ('0' ≤ c) && decide (c ≤ '9')

/-- Value of a run of decimal digits. -/
def digitsValue (ds : List Char) : Nat :=
  ds.foldl (fun acc c => 10 * acc + (c.toNat - '0'.toNat)) 0

/-- The integer a base-10 literal denotes: an optional sign followed by one or more digits. -/
def decimalValue (s : String) : Option Int :=
  let body : Bool × List Char :=
    match s.data with
    | '-' :: r => (true, r)
    | '+' :: r => (false, r)
    | cs => (false, cs)
  if body.2.isEmpty || !body.2.all isDigit then none
  else some (if body.1 then -(digitsValue body.2 : Int) else (digitsValue body.2 : Int))

/-- Go's `strconv.Atoi`: `none` stands for a non-nil error (syntax error, or a value outside
the range of `int`). -/
def Atoi (s : String) : Option Int :=
  match decimalValue s with
  | none => none
  | some v => if minInt ≤ v ∧ v ≤ maxInt then some v else none

/-- Whether `p` is an initial segment of `s`. -/
def startsWith : List Char → List Char → Bool
  | _, [] => true
  | [], _ :: _ => false
  | c :: cs, p :: ps => c == p && startsWith cs ps

/-- Whether `sub` occurs in `s` at some offset. -/
def occursIn : List Char → List Char → Bool
  | [], sub => startsWith [] sub
  | c :: cs, sub => startsWith (c :: cs) sub || occursIn cs sub

/-- Go's `strings.Contains`: whether `substr` occurs within `s` (always so when empty). -/
def Contains (s substr : String) : Bool := occursIn s.data substr.data

/-! ## The outside world -/

/-- A record read from the tailer's `Lines` channel. -/
structure TailLine where
  Text : String
  Err : Option String
  deriving DecidableEq, Repr

/-- What a tailer opened with `Follow: false` delivers: the values received from its `Lines`
channel until the channel is closed, and the error the tailer stopped with, if any. -/
structure Tail where
  Lines : List (Option TailLine)
  Err : Option String
  deriving DecidableEq, Repr

/-- Result of `os.Stat`: file information, or an error that is or is not a not-exist error. -/
inductive StatResult where
  | info (isDir : Bool)
  | err (isNotExist : Bool)
  deriving DecidableEq, Repr

/-- Everything the log handler consults outside the process. -/
structure World where
  /-- Implementation-dependent result of `int(t)` for a float that `int` cannot represent. -/
  floatUndef : GoFloat → Int
  /-- Go's `regexp.Compile`: an error text, or the compiled pattern's `MatchString`. -/
  regexpCompile : String → Except String (String → Bool)
  /-- Go's `os.Stat`. -/
  osStat : String → StatResult
  /-- The call `tail.TailFile(file, tailConf)`. -/
  tailFile : String → Except String Tail
  /-- Running `journalctl -n <lines>` and capturing its standard output. -/
  journalctl : Int → Except String String
  /-- A `bufio.Scanner` over a text: the tokens successive `Scan` calls return, and `Err()`. -/
  scanLines : String → List String × Option String
  /-- The runtime's `maxAlloc`, the largest size in bytes of one allocation (2^48 on 64-bit
  Linux). -/
  maxAlloc : Int
  /-- Whether the allocator returns a block of the given size in bytes; when it does not the
  process dies out of memory. -/
  mallocgc : Int → Bool

/-- A source operation performed by the handler. -/
inductive Op where
  | stat (name : String)
  | tailFile (filename : String)
  | journalctl (lines : Int)
  deriving DecidableEq, Repr

/-! ## The handler -/

/-- The map serialised into the success result. -/
structure Summary where
  file : String
  lines : List String
  line_count : Nat
  filter : String
  regex : String
  deriving DecidableEq, Repr

/-- A tool result: `mcp.NewToolResultError` or `mcp.NewToolResultText` of the summary. -/
inductive CallToolResult where
  | error (text : String)
  | text (summary : Summary)
  deriving DecidableEq, Repr

/-- How a call of the handler ends: it returns a tool result, or it does not return because
the runtime panicked (or died) inside it. -/
inductive Outcome where
  | returned (result : CallToolResult)
  | panicked
  deriving DecidableEq, Repr

/-- Size in bytes of a string header, the element of a `[]string`, on a 64-bit target. -/
def stringSize : Int := 16

/-- The allocation `make([]string, 0, cap)` (the runtime's `makeslice`): `true` when the slice
is returned.  The runtime panics with `makeslice: cap out of range` when `cap` is negative,
when the size `stringSize * cap` overflows a 64-bit word, or when it exceeds `maxAlloc`;
otherwise the allocator is asked for the block. -/
def makeslice (w : World) (cap : Int) : Bool :=
  if cap < 0 ∨ 2 ^ 64 ≤ stringSize * cap ∨ w.maxAlloc < stringSize * cap then false
  else w.mallocgc (stringSize * cap)

/-- The loop of `readJournalctlLines` appending each scanned token to `result`. -/
def readJournalctlLines.collect : List String → List String → List String
  | [], result => result
  | tok :: rest, result => readJournalctlLines.collect rest (result ++ [tok])

/-- Helper to read last N lines from journalctl (systemd journal): `tool.go` lines 40-55.
The command failure and the scanner error each give an error; otherwise the scanned lines. -/
def readJournalctlLines (w : World) (lines : Int) : Except String (List String) :=
  match w.journalctl lines with
  | .error err => .error ("journalctl command failed: " ++ err)
  | .ok out =>
    let scanned := w.scanLines out
    let result := readJournalctlLines.collect scanned.1 []
    match scanned.2 with
    | some err => .error ("error scanning journalctl output: " ++ err)
    | none => .ok result

/-- The effective limit: the local `lines` after the coercion of the `lines` argument
(`tool.go` lines 66-87).  The switch assigns the converted value, a string only when `Atoi`
succeeds, and a value below 1 is then reset to 20. -/
def Handler.lines (w : World) (args : Arguments) : Int :=
  match args "lines" with
  | none => 20
  | some v =>
    let lines : Int :=
      match v with
      | .float64 t => floatToInt w.floatUndef t
      | .float32 t => floatToInt w.floatUndef t
      | .int t => t
      | .int64 t => t
      | .string t =>
        match Atoi t with
        | some i => i
        | none => 20
      | .other => 20
    if lines < 1 then 20 else lines

/-- The local `re` (`tool.go` lines 100-107): nil (`none`) when the pattern string is empty,
the compiled pattern otherwise, or the compilation error. -/
def Handler.re (w : World) (regexStr : String) : Except String (Option (String → Bool)) :=
  if regexStr ≠ "" then
    match w.regexpCompile regexStr with
    | .error err => .error err
    | .ok re => .ok (some re)
  else .ok none

/-- The loop over `tailer.Lines` (`tool.go` lines 126-134): stop at a nil record, append the
text, and drop the oldest line once more than `lines` are held.  Neither the record's `Err`
nor the tailer's error is read. -/
def Handler.tailLoop (lines : Int) : List (Option TailLine) → List String → List String
  | [], rawLines => rawLines
  | none :: _, rawLines => rawLines
  | some line :: rest, rawLines =>
    let rawLines := rawLines ++ [line.Text]
    if (rawLines.length : Int) > lines then Handler.tailLoop lines rest (rawLines.drop 1)
    else Handler.tailLoop lines rest rawLines

/-- The filtering loop (`tool.go` lines 148-163): a compiled pattern decides alone when there
is one, otherwise the non-empty substring; a kept line is appended and the oldest dropped
beyond `lines`. -/
def Handler.filterLoop (lines : Int) (re : Option (String → Bool)) (filter : String) :
    List String → List String → List String
  | [], buffer => buffer
  | text :: rest, buffer =>
    let skip : Bool :=
      match re with
      | some matchString => !matchString text
      | none => if filter ≠ "" then !Contains text filter else false
    if skip then Handler.filterLoop lines re filter rest buffer
    else
      let buffer := buffer ++ [text]
      if (buffer.length : Int) > lines then
        Handler.filterLoop lines re filter rest (buffer.drop 1)
      else Handler.filterLoop lines re filter rest buffer

/-- The handler of `get_log_info` (`tool.go` lines 57-175): how the call ends, and the source
operations performed.  `finish` is the code after source selection (the allocation of
`buffer` at line 148, where the runtime panics when the limit is too large for a slice, then
filtering and the summary), `fallback` the else-branch taken when the path is not an existing
non-directory. -/
def Handler (w : World) (args : Arguments) : Outcome × List Op :=
  let file := asString (args "file")
  if file = "" then (.returned (.error "Parameter 'file' is required."), [])
  else
    let lines := Handler.lines w args
    let filter := asString (args "filter")
    let regexStr := asString (args "regex")
    match Handler.re w regexStr with
    | .error err => (.returned (.error ("Invalid regex pattern: " ++ err)), [])
    | .ok re =>
      let finish (rawLines : List String) (ops : List Op) : Outcome × List Op :=
        if makeslice w lines = true then
          let outputLines := Handler.filterLoop lines re filter rawLines []
          (.returned (.text
            { file := file
              lines := outputLines
              line_count := outputLines.length
              filter := filter
              regex := regexStr }), ops)
        else (.panicked, ops)
      let fallback (isNotExist : Bool) : Outcome × List Op :=
        if file = "/var/log/syslog" ∨ (isNotExist = true ∧ Contains file "/var/log" = true) then
          match readJournalctlLines w lines with
          | .error err =>
            (.returned (.error ("Failed to read logs using journalctl: " ++ err)),
              [.stat file, .journalctl lines])
          | .ok rawLines => finish rawLines [.stat file, .journalctl lines]
        else
          (.returned (.error ("File not found or is not a regular file: " ++ file)),
            [.stat file])
      match w.osStat file with
      | .info false =>
        match w.tailFile file with
        | .error err =>
          (.returned (.error ("Failed to open log file: " ++ err)),
            [.stat file, .tailFile file])
        | .ok tailer => finish (Handler.tailLoop lines tailer.Lines []) [.stat file, .tailFile file]
      | .info true => fallback false
      | .err isNotExist => fallback isNotExist

end logs

namespace logs

/-! ## Specification-side vocabulary -/

/-- The last `n` elements of a list (the whole list when it is shorter). -/
def lastN (n : Nat) (l : List String) : List String := l.drop (l.length - n)

/-- The predicate the filtering loop applies to a raw line. -/
def keeps (re : Option (String → Bool)) (filter : String) (text : String) : Bool :=
  match re with
  | some matchString => matchString text
  | none => decide (filter = "") || Contains text filter

/-- The summary the handler builds around its output lines. -/
def summaryOf (args : Arguments) (outputLines : List String) : Summary :=
  { file := asString (args "file")
    lines := outputLines
    line_count := outputLines.length
    filter := asString (args "filter")
    regex := asString (args "regex") }

/-- The path is served by the journal: it is not an existing non-directory, and it is the
syslog path or a missing path containing `/var/log`. -/
def journalServed (w : World) (file : String) : Prop :=
  w.osStat file ≠ .info false ∧
    (file = "/var/log/syslog" ∨ (w.osStat file = .err true ∧ Contains file "/var/log" = true))

/-- The float's truncation toward zero is a value of `int`, so that `int(t)` is defined. -/
def GoFloat.representable (t : GoFloat) : Prop :=
  match t.trunc with
  | some z => minInt ≤ z ∧ z ≤ maxInt
  | none => False

instance journalServed.dec (w : World) (file : String) : Decidable (journalServed w file) :=
  inferInstanceAs (Decidable (_ ∧ _))

instance GoFloat.decRepresentable (t : GoFloat) : Decidable t.representable :=
  match h : t.trunc with
  | some z =>
    if hz : minInt ≤ z ∧ z ≤ maxInt then isTrue (by simp only [GoFloat.representable, h]; exact hz)
    else isFalse (by simp only [GoFloat.representable, h]; exact hz)
  | none => isFalse (by simp only [GoFloat.representable, h]; exact not_false)

instance GoFloat.decIsInteger : (t : GoFloat) → (n : Int) → Decidable (t.isInteger n)
  | .finite m e, n =>
    inferInstanceAs (Decidable (if 0 ≤ e then m * 2 ^ e.toNat = n else m = n * 2 ^ (-e).toNat))
  | .inf _, _ => isFalse (fun h => h)
  | .nan, _ => isFalse (fun h => h)

instance GoFloat.decBelowOne : (t : GoFloat) → Decidable t.belowOne
  | .finite m e =>
    inferInstanceAs (Decidable (if 0 ≤ e then m * 2 ^ e.toNat < 1 else m < 2 ^ (-e).toNat))
  | .inf _ => isFalse (fun h => h)
  | .nan => isFalse (fun h => h)

end logs

namespace nvidia

/-! ## The GPU tool -/

/-- An NVML return code (`nvml.Return`). -/
abbrev Return := Int

/-- The return code `nvml.SUCCESS`. -/
def SUCCESS : Return := 0

/-- The part of `nvml.PciInfo` the handler reads. -/
structure PciInfo where
  BusId : List Int
  deriving DecidableEq, Repr

/-- The result `nvml.Memory` of `GetMemoryInfo`. -/
structure Memory where
  Total : Nat
  Free : Nat
  Used : Nat
  deriving DecidableEq, Repr

/-- The result `nvml.Utilization` of `GetUtilizationRates`. -/
structure Utilization where
  Gpu : Nat
  Memory : Nat
  deriving DecidableEq, Repr

/-- A device handle: what each getter returns, a value together with a return code. -/
structure Device where
  GetName : String × Return
  GetUUID : String × Return
  GetSerial : String × Return
  GetPciInfo : PciInfo × Return
  GetMemoryInfo : Memory × Return
  GetUtilizationRates : Utilization × Return
  GetTemperature : Nat × Return
  GetPowerUsage : Nat × Return
  GetEnforcedPowerLimit : Nat × Return
  deriving DecidableEq, Repr

/-- The NVML library as the handler sees it. -/
structure World where
  Init : Return
  DeviceGetCount : Int × Return
  DeviceGetHandleByIndex : Int → Device × Return
  ErrorString : Return → String

/-- A value stored in a device's map. `milliToUnit p` is the float `float64(p) / 1000.0`. -/
inductive Value where
  | string (s : String)
  | busId (b : List Int)
  | uint64 (n : Nat)
  | uint32 (n : Nat)
  | milliToUnit (p : Nat)
  deriving DecidableEq, Repr

/-- A device's entry of the output: the map literal, as its key-value pairs. -/
abbrev Entry := List (String × Value)

/-- The tool result: an error result, or the text result serialising `gpus`. -/
inductive CallToolResult where
  | error (text : String)
  | text (gpus : List Entry)
  deriving DecidableEq, Repr

/-- The body of the loop after the handle was obtained: call the nine getters, discard
their return codes, and build the device's map. -/
def Handler.entry (dev : Device) : Entry :=
  let name := dev.GetName.1
  let uuid := dev.GetUUID.1
  let serial := dev.GetSerial.1
  let pci := dev.GetPciInfo.1
  let mem := dev.GetMemoryInfo.1
  let util := dev.GetUtilizationRates.1
  let temp := dev.GetTemperature.1
  let power := dev.GetPowerUsage.1
  let maxPower := dev.GetEnforcedPowerLimit.1
  [ ("name", .string name),
    ("uuid", .string uuid),
    ("serial", .string serial),
    ("pci_bus_id", .busId pci.BusId),
    ("memory_total", .uint64 mem.Total),
    ("memory_used", .uint64 mem.Used),
    ("memory_free", .uint64 mem.Free),
    ("gpu_util", .uint32 util.Gpu),
    ("mem_util", .uint32 util.Memory),
    ("temperature", .uint32 temp),
    ("power_watts", .milliToUnit power),
    ("power_limit_watts", .milliToUnit maxPower) ]

/-- The loop `for i := 0; i < count; i++` (`nvidia/tool.go` lines 35-65), with `remaining`
iterations left at index `i`: a failed handle lookup aborts, otherwise the entry is appended. -/
def Handler.loop (w : World) : Nat → Int → List Entry → Except String (List Entry)
  | 0, _, gpus => .ok gpus
  | remaining + 1, i, gpus =>
    let got := w.DeviceGetHandleByIndex i
    if got.2 ≠ SUCCESS then
      .error ("Failed to get GPU device at index " ++ toString i ++ ": " ++ w.ErrorString got.2)
    else Handler.loop w remaining (i + 1) (gpus ++ [Handler.entry got.1])

/-- Handler handles NVIDIA GPU information requests (`nvidia/tool.go` lines 20-77).  The
values put in the maps (strings, unsigned integers, an array of bytes, finite floats) always
serialise, so the branch for a serialisation error is not part of the model. -/
def Handler (w : World) : CallToolResult :=
  let ret := w.Init
  if ret ≠ SUCCESS then .error ("Failed to initialize NVML: " ++ w.ErrorString ret)
  else
    let counted := w.DeviceGetCount
    if counted.2 ≠ SUCCESS then .error ("Failed to get device count: " ++ w.ErrorString counted.2)
    else
      match Handler.loop w counted.1.toNat 0 [] with
      | .error text => .error text
      | .ok gpus => .text gpus

/-- The keys of a device's entry. -/
def entryKeys : List String :=
  ["name", "uuid", "serial", "pci_bus_id", "memory_total", "memory_used", "memory_free",
    "gpu_util", "mem_util", "temperature", "power_watts", "power_limit_watts"]

/-- The operation fails at its initialise or enumerate steps: initialisation, the device
count, or the handle lookup of a device below the count. -/
def enumerationFails (w : World) : Prop :=
  w.Init ≠ SUCCESS ∨ w.DeviceGetCount.2 ≠ SUCCESS ∨
    ∃ k : Nat, k < w.DeviceGetCount.1.toNat ∧ (w.DeviceGetHandleByIndex k).2 ≠ SUCCESS

instance enumerationFails.dec (w : World) : Decidable (enumerationFails w) :=
  inferInstanceAs (Decidable (_ ∨ _ ∨ _))

end nvidia

namespace logs

/-! ## Concrete worlds and requests -/

/-- A stand-in pattern compiler: `(` does not compile, `[0-9]+` matches a line holding a
digit, any other pattern matches the lines that contain it literally. -/
def demoCompile (pattern : String) : Except String (String → Bool) :=
  if pattern = "(" then .error "missing closing )"
  else if pattern = "[0-9]+" then .ok (fun s => s.data.any isDigit)
  else .ok (fun s => Contains s pattern)

/-- A world with one regular file `/tmp/app.log` of given lines, a directory `/tmp`, nothing
else on disk, a journal that prints a header line followed by three entries, and an allocator
that serves blocks of up to 64 GiB. -/
def demoWorld (fileLines : List String) : World where
  floatUndef := fun _ => minInt
  regexpCompile := demoCompile
  osStat := fun name =>
    if name = "/tmp/app.log" then .info false
    else if name = "/tmp" then .info true
    else .err true
  tailFile := fun name =>
    if name = "/tmp/app.log" then
      .ok { Lines := fileLines.map (fun t => some { Text := t, Err := none }), Err := none }
    else .error "no such file"
  journalctl := fun _ => .ok "-- header --\nj1 x\nj2\nj3 x\n"
  scanLines := fun out =>
    if out = "-- header --\nj1 x\nj2\nj3 x\n" then (["-- header --", "j1 x", "j2", "j3 x"], none)
    else ([], none)
  maxAlloc := 2 ^ 48
  mallocgc := fun size => decide (size ≤ 2 ^ 36)

/-- The world of `demoWorld` whose file `/tmp/app.log` is served by the given tailer. -/
def demoWorldTail (tailer : Tail) : World :=
  { demoWorld [] with
    tailFile := fun name => if name = "/tmp/app.log" then .ok tailer else .error "no such file" }

/-- A tailer that delivered two lines and then stopped with a read error. -/
def stoppedTail : Tail :=
  { Lines := [some { Text := "a", Err := none }, some { Text := "b", Err := none }]
    Err := some "Error reading /tmp/app.log: input/output error" }

/-- A tailer that delivered a line and then a record carrying an error. -/
def errRecordTail : Tail :=
  { Lines := [some { Text := "a", Err := none },
      some { Text := "Too much log activity", Err := some "Too much log activity" }]
    Err := none }

/-- A request built from its four arguments. -/
def request (file : String) (lines : Option ArgValue) (filter regex : Option String) :
    Arguments := fun key =>
  if key = "file" then some (.string file)
  else if key = "lines" then lines
  else if key = "filter" then filter.map ArgValue.string
  else if key = "regex" then regex.map ArgValue.string
  else none

end logs

namespace nvidia

/-- A device whose name getter fails with `ERROR_UNKNOWN` (999) and returns an empty name,
while its other getters succeed. -/
def namelessDevice : Device :=
  { GetName := ("", 999)
    GetUUID := ("GPU-0", 0)
    GetSerial := ("S0", 0)
    GetPciInfo := ({ BusId := [48, 48] }, 0)
    GetMemoryInfo := ({ Total := 8, Free := 5, Used := 3 }, 0)
    GetUtilizationRates := ({ Gpu := 10, Memory := 20 }, 0)
    GetTemperature := (40, 0)
    GetPowerUsage := (50000, 0)
    GetEnforcedPowerLimit := (250000, 0) }

/-- An NVML with `count` devices, all of them `namelessDevice`; the handle lookup fails at
the indices listed in `broken`. -/
def demoWorld (initRet : Return) (count : Int) (broken : List Int) : World :=
  { Init := initRet
    DeviceGetCount := (count, 0)
    DeviceGetHandleByIndex := fun i => (namelessDevice, if i ∈ broken then 999 else 0)
    ErrorString := fun ret => if ret = 0 then "SUCCESS" else "ERROR_UNKNOWN" }

end nvidia
namespace logs

/-! ## The substring test -/

theorem startsWith_iff_prefix : ∀ s p : List Char, startsWith s p = true ↔ p <+: s
  | _, [] => by simp [startsWith]
  | [], _ :: _ => by simp [startsWith]
  | c :: cs, p :: ps => by
    simp only [startsWith, Bool.and_eq_true, beq_iff_eq, List.cons_prefix_cons,
      startsWith_iff_prefix cs ps]
    constructor
    · rintro ⟨h1, h2⟩; exact ⟨h1.symm, h2⟩
    · rintro ⟨h1, h2⟩; exact ⟨h1.symm, h2⟩

theorem occursIn_iff_infix : ∀ s sub : List Char, occursIn s sub = true ↔ sub <:+: s
  | [], sub => by
    simp only [occursIn, startsWith_iff_prefix, List.prefix_nil, List.infix_nil]
  | c :: cs, sub => by
    simp only [occursIn, Bool.or_eq_true, startsWith_iff_prefix, occursIn_iff_infix cs sub,
      List.infix_cons_iff]

/-- The model of `strings.Contains` is the substring relation. -/
theorem Contains_iff_infix (s substr : String) :
    Contains s substr = true ↔ substr.data <:+: s.data :=
  occursIn_iff_infix s.data substr.data

/-! ## Sliding-window lemmas -/

theorem lastN_of_length_le {n : Nat} {l : List String} (h : l.length ≤ n) : lastN n l = l := by
  unfold lastN
  rw [Nat.sub_eq_zero_of_le h]
  rfl

theorem length_lastN (n : Nat) (l : List String) : (lastN n l).length = min n l.length := by
  unfold lastN
  rw [List.length_drop]
  omega

theorem length_lastN_le (n : Nat) (l : List String) : (lastN n l).length ≤ n := by
  rw [length_lastN]
  exact Nat.min_le_left _ _

theorem lastN_lastN_append (n : Nat) (a b : List String) :
    lastN n (lastN n a ++ b) = lastN n (a ++ b) := by
  by_cases h : a.length ≤ n
  · rw [lastN_of_length_le h]
  · have hk : a.length - n ≤ a.length := Nat.sub_le _ _
    have hlen : (lastN n a).length = n := by rw [length_lastN]; omega
    unfold lastN at hlen ⊢
    rw [List.length_append, List.length_append, hlen]
    have e1 : n + b.length - n = b.length := by omega
    have e2 : a.length + b.length - n = (a.length - n) + b.length := by omega
    rw [e1, e2, ← List.drop_drop, List.drop_append_of_le_length hk]

/-- One push into a window of capacity `lines`, as both loops of the handler do it. -/
theorem push_eq_lastN (lines : Int) (h0 : 0 ≤ lines) (buf : List String) (x : String)
    (hb : buf.length ≤ lines.toNat) :
    (if ((buf ++ [x]).length : Int) > lines then (buf ++ [x]).drop 1 else buf ++ [x])
      = lastN lines.toNat (buf ++ [x]) := by
  have hlen : (buf ++ [x]).length = buf.length + 1 := by simp
  split
  · rename_i hgt
    have : buf.length = lines.toNat := by omega
    unfold lastN
    rw [hlen, this]
    congr 1
    omega
  · rename_i hgt
    rw [lastN_of_length_le]
    omega

theorem filterLoop_cons_keep (lines : Int) (re : Option (String → Bool)) (filter text : String)
    (rest acc : List String) (hk : keeps re filter text = true) :
    Handler.filterLoop lines re filter (text :: rest) acc
      = Handler.filterLoop lines re filter rest
          (if ((acc ++ [text]).length : Int) > lines then (acc ++ [text]).drop 1
            else acc ++ [text]) := by
  cases re with
  | some m =>
    have hm : m text = true := by simpa [keeps] using hk
    simp only [Handler.filterLoop, hm, Bool.not_true, Bool.false_eq_true, if_false]
    split_ifs <;> rfl
  | none =>
    by_cases hf : filter = ""
    · simp only [Handler.filterLoop, hf, ne_eq, not_true_eq_false, if_false,
        Bool.false_eq_true]
      split_ifs <;> rfl
    · have hc : Contains text filter = true := by simpa [keeps, hf] using hk
      simp only [Handler.filterLoop, hc, Bool.not_true, ite_self, Bool.false_eq_true, if_false]
      split_ifs <;> rfl

theorem filterLoop_cons_skip (lines : Int) (re : Option (String → Bool)) (filter text : String)
    (rest acc : List String) (hk : keeps re filter text = false) :
    Handler.filterLoop lines re filter (text :: rest) acc
      = Handler.filterLoop lines re filter rest acc := by
  cases re with
  | some m =>
    have hm : m text = false := by simpa [keeps] using hk
    simp [Handler.filterLoop, hm]
  | none =>
    have hf : filter ≠ "" := by
      intro hf
      simp [keeps, hf] at hk
    have hc : Contains text filter = false := by simpa [keeps, hf] using hk
    simp [Handler.filterLoop, hc, hf]

theorem filterLoop_eq (lines : Int) (h0 : 0 ≤ lines) (re : Option (String → Bool))
    (filter : String) (raw : List String) :
    ∀ acc : List String, acc.length ≤ lines.toNat →
      Handler.filterLoop lines re filter raw acc
        = lastN lines.toNat (acc ++ raw.filter (keeps re filter)) := by
  induction raw with
  | nil =>
    intro acc hacc
    simp [Handler.filterLoop, lastN_of_length_le hacc]
  | cons text rest ih =>
    intro acc hacc
    by_cases hk : keeps re filter text = true
    · rw [filterLoop_cons_keep lines re filter text rest acc hk,
        push_eq_lastN lines h0 acc text hacc, ih _ (length_lastN_le _ _), lastN_lastN_append]
      simp [List.filter_cons, hk]
    · have hk2 : keeps re filter text = false := by simpa using hk
      rw [filterLoop_cons_skip lines re filter text rest acc hk2, ih _ hacc]
      simp [List.filter_cons, hk2]

/-! ## The allocation of the output buffer -/

/-- A capacity of 2^60 or more overflows the size computation: the allocation panics on
every 64-bit target, whatever the allocator. -/
theorem makeslice_of_overflow (w : World) (cap : Int) (h : 2 ^ 60 ≤ cap) :
    makeslice w cap = false := by
  have h2 : (2 : Int) ^ 64 ≤ stringSize * cap := by
    have e : (2 : Int) ^ 64 = 16 * 2 ^ 60 := by norm_num
    rw [e]
    simp only [stringSize]
    omega
  unfold makeslice
  rw [if_pos (Or.inr (Or.inl h2))]

/-- Within the runtime's maximum the allocation is up to the allocator. -/
theorem makeslice_of_fits (w : World) (cap : Int) (h0 : 0 ≤ cap)
    (h1 : stringSize * cap < 2 ^ 64) (h2 : stringSize * cap ≤ w.maxAlloc) :
    makeslice w cap = w.mallocgc (stringSize * cap) := by
  have a : ¬ cap < 0 := by omega
  have b : ¬ (2 : Int) ^ 64 ≤ stringSize * cap := by omega
  have c : ¬ w.maxAlloc < stringSize * cap := by omega
  unfold makeslice
  rw [if_neg (by rintro (h | h | h) <;> contradiction)]

/-! ## The handler on each of its paths -/

theorem journal_error_ne_not_found (err file : String) :
    "Failed to read logs using journalctl: " ++ err
      ≠ "File not found or is not a regular file: " ++ file := by
  intro h
  have h2 := congrArg String.data h
  simp only [String.data_append] at h2
  have h3 := congrArg (fun l => l.get? 1) h2
  simp at h3


theorem Handler_lines_pos (w : World) (args : Arguments) : 1 ≤ Handler.lines w args := by
  unfold Handler.lines
  split
  · decide
  · simp only
    split
    · decide
    · omega

theorem re_of_empty (w : World) : Handler.re w "" = .ok none := by
  simp [Handler.re]

/-- The handler on an existing non-directory that the tailer opens, when the output buffer
cannot be allocated: the call panics after the file was read. -/
theorem Handler_file_source_panics (w : World) (args : Arguments)
    (re : Option (String → Bool)) (tailer : Tail) (hfile : asString (args "file") ≠ "")
    (hre : Handler.re w (asString (args "regex")) = .ok re)
    (hstat : w.osStat (asString (args "file")) = .info false)
    (htail : w.tailFile (asString (args "file")) = .ok tailer)
    (halloc : makeslice w (Handler.lines w args) = false) :
    Handler w args =
      (.panicked, [.stat (asString (args "file")), .tailFile (asString (args "file"))]) := by
  simp only [Handler, hfile, hre, hstat, htail, halloc, if_false, Bool.false_eq_true]

/-- The syslog path that does not exist: the journal is called with the effective limit
whatever happens afterwards, and the outcome is never the not-found error. -/
theorem Handler_syslog_missing (w : World) (args : Arguments) (re : Option (String → Bool))
    (hsys : asString (args "file") = "/var/log/syslog")
    (hre : Handler.re w (asString (args "regex")) = .ok re)
    (hmissing : w.osStat "/var/log/syslog" = .err true) :
    (Handler w args).2 = [.stat "/var/log/syslog", .journalctl (Handler.lines w args)] ∧
    (Handler w args).1
      ≠ .returned (.error ("File not found or is not a regular file: " ++ "/var/log/syslog")) := by
  have hfile : ("/var/log/syslog" : String) ≠ "" := by decide
  cases hread : readJournalctlLines w (Handler.lines w args) with
  | error err =>
    have hH : Handler w args
        = (.returned (.error ("Failed to read logs using journalctl: " ++ err)),
            [.stat "/var/log/syslog", .journalctl (Handler.lines w args)]) := by
      simp only [Handler, hsys, hfile, hre, hmissing, hread, if_false, true_or, if_true]
    rw [hH]
    refine ⟨rfl, ?_⟩
    intro hcontra
    injection hcontra with hcontra
    injection hcontra with hcontra
    exact journal_error_ne_not_found _ _ hcontra
  | ok L =>
    by_cases halloc : makeslice w (Handler.lines w args) = true
    · have hH : Handler w args
          = (.returned (.text
              { file := "/var/log/syslog"
                lines := Handler.filterLoop (Handler.lines w args) re
                  (asString (args "filter")) L []
                line_count := (Handler.filterLoop (Handler.lines w args) re
                  (asString (args "filter")) L []).length
                filter := asString (args "filter")
                regex := asString (args "regex") }),
              [.stat "/var/log/syslog", .journalctl (Handler.lines w args)]) := by
        simp only [Handler, hsys, hfile, hre, hmissing, hread, halloc, if_false, true_or,
          if_true]
      rw [hH]
      exact ⟨rfl, by simp⟩
    · have hH : Handler w args
          = (.panicked, [.stat "/var/log/syslog", .journalctl (Handler.lines w args)]) := by
        simp only [Handler, hsys, hfile, hre, hmissing, hread, halloc, if_false, true_or,
          if_true, Bool.false_eq_true]
      rw [hH]
      exact ⟨rfl, by simp⟩

theorem length_filterLoop_le (lines : Int) (h0 : 0 ≤ lines) (re : Option (String → Bool))
    (filter : String) (raw : List String) :
    ((Handler.filterLoop lines re filter raw []).length : Int) ≤ lines := by
  rw [filterLoop_eq lines h0 re filter raw [] (Nat.zero_le _)]
  have := length_lastN_le lines.toNat ([] ++ raw.filter (keeps re filter))
  omega

/-- Every success result is the summary of an output of the filtering loop. -/
theorem Handler_success_shape (w : World) (args : Arguments) (s : Summary)
    (h : (Handler w args).1 = .returned (.text s)) :
    ∃ (re : Option (String → Bool)) (raw : List String),
      s = summaryOf args (Handler.filterLoop (Handler.lines w args) re
        (asString (args "filter")) raw []) := by
  unfold Handler at h
  simp only at h
  split at h
  · simp at h
  · split at h
    · simp at h
    · rename_i re hre
      split at h
      · split at h
        · simp at h
        · rename_i tailer htail
          split at h
          · simp only [Outcome.returned.injEq, CallToolResult.text.injEq] at h
            exact ⟨re, _, h.symm⟩
          · simp at h
      · split at h
        · split at h
          · simp at h
          · rename_i rawLines hread
            split at h
            · simp only [Outcome.returned.injEq, CallToolResult.text.injEq] at h
              exact ⟨re, _, h.symm⟩
            · simp at h
        · simp at h
      · split at h
        · split at h
          · simp at h
          · rename_i rawLines hread
            split at h
            · simp only [Outcome.returned.injEq, CallToolResult.text.injEq] at h
              exact ⟨re, _, h.symm⟩
            · simp at h
        · simp at h

/-! ## Coercion of the `lines` argument -/

theorem tdiv_lt_one {m d : Int} (hd : 0 < d) (h : m < d) : Int.tdiv m d < 1 := by
  by_cases hm : 0 ≤ m
  · rw [Int.tdiv_eq_zero_of_lt hm h]
    decide
  · have h1 : Int.tdiv m d = -(Int.tdiv (-m) d) := by rw [Int.neg_tdiv, neg_neg]
    have h2 : 0 ≤ Int.tdiv (-m) d := Int.tdiv_nonneg (by omega) (by omega)
    omega

theorem floatToInt_of_isInteger (undef : GoFloat → Int) (t : GoFloat) (n : Int)
    (ht : t.isInteger n) (hlo : minInt ≤ n) (hhi : n ≤ maxInt) : floatToInt undef t = n := by
  cases t with
  | finite m e =>
    by_cases he : 0 ≤ e
    · have hv : m * 2 ^ e.toNat = n := by simpa [GoFloat.isInteger, he] using ht
      simp [floatToInt, GoFloat.trunc, he, hv, hlo, hhi]
    · have hv : m = n * 2 ^ (-e).toNat := by simpa [GoFloat.isInteger, he] using ht
      have hpow : (2 : Int) ^ (-e).toNat ≠ 0 := pow_ne_zero _ (by decide)
      have htd : Int.tdiv m (2 ^ (-e).toNat) = n := by
        rw [hv]
        exact Int.mul_tdiv_cancel n hpow
      simp [floatToInt, GoFloat.trunc, he, htd, hlo, hhi]
  | inf negative => exact absurd ht (by simp [GoFloat.isInteger])
  | nan => exact absurd ht (by simp [GoFloat.isInteger])

theorem floatToInt_of_belowOne (undef : GoFloat → Int) (t : GoFloat)
    (ht : t.belowOne) (hrep : t.representable) : floatToInt undef t < 1 := by
  cases t with
  | finite m e =>
    by_cases he : 0 ≤ e
    · have hv : m * 2 ^ e.toNat < 1 := by simpa [GoFloat.belowOne, he] using ht
      have hr : minInt ≤ m * 2 ^ e.toNat ∧ m * 2 ^ e.toNat ≤ maxInt := by
        simpa [GoFloat.representable, GoFloat.trunc, he] using hrep
      simp only [floatToInt, GoFloat.trunc, he, if_true, hr, and_self]
      exact hv
    · have hv : m < 2 ^ (-e).toNat := by simpa [GoFloat.belowOne, he] using ht
      have hpow : (0 : Int) < 2 ^ (-e).toNat := pow_pos (by decide) _
      have hr : minInt ≤ Int.tdiv m (2 ^ (-e).toNat) ∧ Int.tdiv m (2 ^ (-e).toNat) ≤ maxInt := by
        simpa [GoFloat.representable, GoFloat.trunc, he] using hrep
      simp only [floatToInt, GoFloat.trunc, he, if_false, hr, and_self, if_true]
      exact tdiv_lt_one hpow hv
  | inf negative => exact absurd ht (by simp [GoFloat.belowOne])
  | nan => exact absurd ht (by simp [GoFloat.belowOne])

theorem lines_of_value (w : World) (args : Arguments) (v : ArgValue) (raw : Int)
    (hraw : (match v with
      | .float64 t => floatToInt w.floatUndef t
      | .float32 t => floatToInt w.floatUndef t
      | .int t => t
      | .int64 t => t
      | .string t =>
        match Atoi t with
        | some i => i
        | none => 20
      | .other => 20) = raw)
    (hv : args "lines" = some v) :
    Handler.lines w args = if raw < 1 then 20 else raw := by
  simp only [Handler.lines, hv, hraw]

theorem Atoi_of_inRange (s : String) (n : Int) (hs : decimalValue s = some n)
    (hlo : minInt ≤ n) (hhi : n ≤ maxInt) : Atoi s = some n := by
  simp [Atoi, hs, hlo, hhi]

theorem Atoi_of_outOfRange (s : String) (n : Int) (hs : decimalValue s = some n)
    (hout : n < minInt ∨ maxInt < n) : Atoi s = none := by
  have : ¬ (minInt ≤ n ∧ n ≤ maxInt) := by omega
  simp [Atoi, hs, this]

end logs

namespace nvidia

/-! ## The device loop -/

theorem loop_ok (w : World) :
    ∀ (remaining : Nat) (i : Int) (gpus : List Entry),
      (∀ j : Nat, j < remaining → (w.DeviceGetHandleByIndex (i + j)).2 = SUCCESS) →
      Handler.loop w remaining i gpus
        = .ok (gpus ++ (List.range remaining).map
            (fun j : Nat => Handler.entry (w.DeviceGetHandleByIndex (i + (j : Int))).1)) := by
  intro remaining
  induction remaining with
  | zero =>
    intro i gpus _
    simp [Handler.loop]
  | succ k ih =>
    intro i gpus hall
    have h0 : (w.DeviceGetHandleByIndex i).2 = SUCCESS := by
      have := hall 0 (Nat.succ_pos k)
      simpa using this
    have hrest : ∀ j : Nat, j < k → (w.DeviceGetHandleByIndex (i + 1 + j)).2 = SUCCESS := by
      intro j hj
      have := hall (j + 1) (Nat.succ_lt_succ hj)
      have e : i + 1 + (j : Int) = i + ((j + 1 : Nat) : Int) := by push_cast; ring
      rw [e]
      exact this
    have hmap : (List.range k).map
          (fun j : Nat => Handler.entry (w.DeviceGetHandleByIndex (i + 1 + (j : Int))).1)
        = (List.range k).map (fun j : Nat => Handler.entry
            (w.DeviceGetHandleByIndex (i + ((Nat.succ j : Nat) : Int))).1) := by
      apply List.map_congr_left
      intro j _
      have e : i + 1 + (j : Int) = i + ((Nat.succ j : Nat) : Int) := by push_cast; ring
      rw [e]
    simp only [Handler.loop, h0, ne_eq, not_true_eq_false, if_false]
    rw [ih (i + 1) _ hrest, hmap, List.range_succ_eq_map, List.map_cons, List.map_map]
    simp [Function.comp_def]

theorem loop_error (w : World) :
    ∀ (remaining : Nat) (i : Int) (gpus : List Entry),
      (∃ j : Nat, j < remaining ∧ (w.DeviceGetHandleByIndex (i + j)).2 ≠ SUCCESS) →
      ∃ text, Handler.loop w remaining i gpus = .error text := by
  intro remaining
  induction remaining with
  | zero =>
    intro i gpus h
    obtain ⟨j, hj, _⟩ := h
    exact absurd hj (Nat.not_lt_zero j)
  | succ k ih =>
    intro i gpus h
    by_cases h0 : (w.DeviceGetHandleByIndex i).2 = SUCCESS
    · obtain ⟨j, hj, hbad⟩ := h
      cases j with
      | zero =>
        simp at hbad
        exact absurd h0 hbad
      | succ j' =>
        have e : i + ((j' + 1 : Nat) : Int) = i + 1 + (j' : Int) := by push_cast; ring
        rw [e] at hbad
        obtain ⟨text, ht⟩ := ih (i + 1) (gpus ++ [Handler.entry (w.DeviceGetHandleByIndex i).1])
          ⟨j', Nat.lt_of_succ_lt_succ hj, hbad⟩
        exact ⟨text, by simp only [Handler.loop, h0, ne_eq, not_true_eq_false, if_false, ht]⟩
    · have hres : Handler.loop w (k + 1) i gpus
          = .error ("Failed to get GPU device at index " ++ toString i ++ ": "
              ++ w.ErrorString (w.DeviceGetHandleByIndex i).2) := by
        simp only [Handler.loop, ne_eq, h0, not_false_eq_true, if_true]
      exact ⟨_, hres⟩

end nvidia

namespace logs

/-! ## Claims about the log handler -/

end logs

namespace logs

/-- C3: whenever the handler returns a success result, whatever the source, the filter and
the number of raw lines, `line_count` equals the length of `lines` and that length is at most
the effective limit. -/
theorem C3_line_count_is_length_within_limit (w : World) (args : Arguments) (s : Summary)
    (h : (Handler w args).1 = .returned (.text s)) :
    s.line_count = s.lines.length ∧ (s.lines.length : Int) ≤ Handler.lines w args := by
  obtain ⟨re, raw, hs⟩ := Handler_success_shape w args s h
  have h1 := Handler_lines_pos w args
  subst hs
  refine ⟨rfl, ?_⟩
  exact length_filterLoop_le _ (by omega) re _ raw

/-- Witness of C3: the journal prints four lines for limit 3; three are returned and
counted. -/
theorem C3_line_count_is_length_within_limit_witness :
    (Handler (demoWorld []) (request "/var/log/syslog" (some (.int 3)) none none)).1
      = .returned (.text { file := "/var/log/syslog", lines := ["j1 x", "j2", "j3 x"],
                           line_count := 3, filter := "", regex := "" }) ∧
    (3 : Nat) = ["j1 x", "j2", "j3 x"].length ∧
    ((["j1 x", "j2", "j3 x"].length : Nat) : Int)
      ≤ Handler.lines (demoWorld []) (request "/var/log/syslog" (some (.int 3)) none none) :=
  ⟨by decide,
    C3_line_count_is_length_within_limit (demoWorld [])
      (request "/var/log/syslog" (some (.int 3)) none none)
      { file := "/var/log/syslog", lines := ["j1 x", "j2", "j3 x"], line_count := 3,
        filter := "", regex := "" } (by decide)⟩

/-- C5: given that the empty pattern compiles (as it does in Go), a request with a non-empty
`file` and a `regex` string that fails to compile gets the error result
`Invalid regex pattern: ...` and no source operation is performed: no stat, no tailing and no
journal call, whatever the path is. -/
theorem C5_invalid_regex_fails_before_any_read (w : World) (args : Arguments) (err : String)
    (hempty : ∃ m, w.regexpCompile "" = .ok m)
    (hfile : asString (args "file") ≠ "")
    (hcomp : w.regexpCompile (asString (args "regex")) = .error err) :
    Handler w args = (.returned (.error ("Invalid regex pattern: " ++ err)), []) := by
  have hrx : asString (args "regex") ≠ "" := by
    intro h
    obtain ⟨m, hm⟩ := hempty
    rw [h, hm] at hcomp
    cases hcomp
  have hre : Handler.re w (asString (args "regex")) = .error err := by
    simp [Handler.re, hrx, hcomp]
  simp only [Handler, hfile, hre, if_false]

/-- Witness of C5: the pattern `(` on a path that does not exist. -/
theorem C5_invalid_regex_fails_before_any_read_witness :
    Handler (demoWorld []) (request "/nonexistent" none none (some "("))
      = (.returned (.error "Invalid regex pattern: missing closing )"), []) :=
  C5_invalid_regex_fails_before_any_read (demoWorld [])
    (request "/nonexistent" none none (some "(")) "missing closing )"
    ⟨fun s => Contains s "", rfl⟩ (by decide) rfl

/-- C6: for a request that passes validation (non-empty path; pattern empty or compiling) on
a path that does not exist: the path `/var/log/syslog` makes the handler call the journal with
the effective limit and not return the not-found error; a path that does not contain
`/var/log` gets the error `File not found or is not a regular file: <path>` and the journal
is never called. -/
theorem C6_source_selection_for_missing_path (w : World) (args : Arguments)
    (hfile : asString (args "file") ≠ "")
    (hrx : asString (args "regex") = "" ∨
      ∃ m, w.regexpCompile (asString (args "regex")) = .ok m)
    (hmissing : w.osStat (asString (args "file")) = .err true) :
    (asString (args "file") = "/var/log/syslog" →
      (Handler w args).2 = [.stat "/var/log/syslog", .journalctl (Handler.lines w args)] ∧
      (Handler w args).1
        ≠ .returned
            (.error ("File not found or is not a regular file: " ++ asString (args "file")))) ∧
    (Contains (asString (args "file")) "/var/log" = false →
      Handler w args =
        (.returned
            (.error ("File not found or is not a regular file: " ++ asString (args "file"))),
          [.stat (asString (args "file"))])) := by
  obtain ⟨re, hre⟩ : ∃ re, Handler.re w (asString (args "regex")) = .ok re := by
    rcases hrx with h | ⟨m, hm⟩
    · exact ⟨none, by rw [h]; exact re_of_empty w⟩
    · by_cases he : asString (args "regex") = ""
      · exact ⟨none, by rw [he]; exact re_of_empty w⟩
      · exact ⟨some m, by simp [Handler.re, he, hm]⟩
  constructor
  · intro hsys
    have hmissing2 := hmissing
    rw [hsys] at hmissing2
    have h := Handler_syslog_missing w args re hsys hre hmissing2
    rw [hsys]
    exact h
  · intro hcon
    have hns : asString (args "file") ≠ "/var/log/syslog" := by
      intro h
      rw [h] at hcon
      exact absurd hcon (by decide)
    simp only [Handler, hfile, hre, hmissing, hns, hcon, if_false, false_or, and_false,
      Bool.false_eq_true]

/-- Witness of C6: in a world with neither path on disk, `/var/log/syslog` is served by the
journal and `/home/u/notes.txt` is reported as not found without a journal call. -/
theorem C6_source_selection_for_missing_path_witness :
    ((Handler (demoWorld []) (request "/var/log/syslog" none none none)).2
        = [.stat "/var/log/syslog", .journalctl 20] ∧
      (Handler (demoWorld []) (request "/var/log/syslog" none none none)).1
        ≠ .returned (.error "File not found or is not a regular file: /var/log/syslog")) ∧
    Handler (demoWorld []) (request "/home/u/notes.txt" none none none)
      = (.returned (.error "File not found or is not a regular file: /home/u/notes.txt"),
          [.stat "/home/u/notes.txt"]) :=
  ⟨(C6_source_selection_for_missing_path (demoWorld [])
      (request "/var/log/syslog" none none none) (by decide) (Or.inl (by decide))
      (by decide)).1 (by decide),
    (C6_source_selection_for_missing_path (demoWorld [])
      (request "/home/u/notes.txt" none none none) (by decide) (Or.inl (by decide))
      (by decide)).2 (by decide)⟩

end logs

namespace logs

/-- C7 as the spec states it fails: the decimal string `9223372036854775808` denotes an
integer n >= 1, yet the effective limit is 20 and not n, because the value is outside the
range of `int` and `strconv.Atoi` reports an error. -/
theorem C7_counterexample_huge_decimal_string :
    decimalValue "9223372036854775808" = some 9223372036854775808 ∧
    (1 : Int) ≤ 9223372036854775808 ∧
    Handler.lines (demoWorld [])
      (request "/tmp/app.log" (some (.string "9223372036854775808")) none none) = 20 ∧
    Handler.lines (demoWorld [])
      (request "/tmp/app.log" (some (.string "9223372036854775808")) none none)
        ≠ 9223372036854775808 := by
  decide

/-- C7, amended: an absent `lines` gives the limit 20; an integer n with 1 <= n <= 2^63 - 1
given as float64, float32, int, int64 or as a decimal string gives the limit n; a decimal
string whose value lies outside the range of `int` leaves the limit at 20; a value below 1
(a float whose truncation `int` can represent, an int, an int64, or a decimal string) resets
the limit to 20; and the effective limit is at least 1 for every request. -/
theorem C7_lines_coercion (w : World) (args : Arguments) :
    (args "lines" = none → Handler.lines w args = 20) ∧
    (∀ n : Int, 1 ≤ n → n ≤ maxInt →
      (∀ t : GoFloat, t.isInteger n →
        args "lines" = some (.float64 t) ∨ args "lines" = some (.float32 t) →
          Handler.lines w args = n) ∧
      (args "lines" = some (.int n) ∨ args "lines" = some (.int64 n) →
        Handler.lines w args = n) ∧
      (∀ s : String, decimalValue s = some n → args "lines" = some (.string s) →
        Handler.lines w args = n)) ∧
    (∀ (s : String) (n : Int), decimalValue s = some n → n < minInt ∨ maxInt < n →
      args "lines" = some (.string s) → Handler.lines w args = 20) ∧
    (∀ t : GoFloat, t.belowOne → t.representable →
      args "lines" = some (.float64 t) ∨ args "lines" = some (.float32 t) →
        Handler.lines w args = 20) ∧
    (∀ n : Int, n < 1 →
      args "lines" = some (.int n) ∨ args "lines" = some (.int64 n) →
        Handler.lines w args = 20) ∧
    (∀ (s : String) (n : Int), decimalValue s = some n → n < 1 →
      args "lines" = some (.string s) → Handler.lines w args = 20) ∧
    1 ≤ Handler.lines w args := by
  have hmin : minInt ≤ 1 := by decide
  refine ⟨?_, ?_, ?_, ?_, ?_, ?_, Handler_lines_pos w args⟩
  · intro h
    simp [Handler.lines, h]
  · intro n h1 hhi
    have hlo : minInt ≤ n := le_trans hmin h1
    have hn : ¬ n < 1 := by omega
    refine ⟨?_, ?_, ?_⟩
    · intro t ht hv
      have hc := floatToInt_of_isInteger w.floatUndef t n ht hlo hhi
      rcases hv with hv | hv
      · rw [lines_of_value w args (.float64 t) n hc hv, if_neg hn]
      · rw [lines_of_value w args (.float32 t) n hc hv, if_neg hn]
    · intro hv
      rcases hv with hv | hv
      · rw [lines_of_value w args (.int n) n rfl hv, if_neg hn]
      · rw [lines_of_value w args (.int64 n) n rfl hv, if_neg hn]
    · intro s hs hv
      have ha := Atoi_of_inRange s n hs hlo hhi
      rw [lines_of_value w args (.string s) n (by simp only [ha]) hv, if_neg hn]
  · intro s n hs hout hv
    have ha := Atoi_of_outOfRange s n hs hout
    rw [lines_of_value w args (.string s) 20 (by simp only [ha]) hv]
    rfl
  · intro t ht hrep hv
    have hc := floatToInt_of_belowOne w.floatUndef t ht hrep
    rcases hv with hv | hv
    · rw [lines_of_value w args (.float64 t) _ rfl hv, if_pos hc]
    · rw [lines_of_value w args (.float32 t) _ rfl hv, if_pos hc]
  · intro n hn hv
    rcases hv with hv | hv
    · rw [lines_of_value w args (.int n) n rfl hv, if_pos hn]
    · rw [lines_of_value w args (.int64 n) n rfl hv, if_pos hn]
  · intro s n hs hn hv
    by_cases hr : minInt ≤ n
    · have ha := Atoi_of_inRange s n hs hr (le_trans (le_of_lt hn) (by decide))
      rw [lines_of_value w args (.string s) n (by simp only [ha]) hv, if_pos hn]
    · have ha := Atoi_of_outOfRange s n hs (Or.inl (by omega))
      rw [lines_of_value w args (.string s) 20 (by simp only [ha]) hv]
      rfl

/-- Witness of C7: the limit 7 given as the float 7 and as the string `+7`, the string `0`
and the float 0.5 reset to 20, and an absent argument gives 20. -/
theorem C7_lines_coercion_witness :
    Handler.lines (demoWorld []) (request "/tmp/app.log" (some (.float64 (.finite 7 0))) none none)
      = 7 ∧
    Handler.lines (demoWorld []) (request "/tmp/app.log" (some (.string "+7")) none none) = 7 ∧
    Handler.lines (demoWorld []) (request "/tmp/app.log" (some (.string "0")) none none) = 20 ∧
    Handler.lines (demoWorld []) (request "/tmp/app.log" (some (.float32 (.finite 1 (-1)))) none none)
      = 20 ∧
    Handler.lines (demoWorld []) (request "/tmp/app.log" none none none) = 20 :=
  ⟨((C7_lines_coercion (demoWorld [])
      (request "/tmp/app.log" (some (.float64 (.finite 7 0))) none none)).2.1 7
        (by decide) (by decide)).1 (.finite 7 0) (by decide) (Or.inl (by decide)),
    ((C7_lines_coercion (demoWorld [])
      (request "/tmp/app.log" (some (.string "+7")) none none)).2.1 7
        (by decide) (by decide)).2.2 "+7" (by decide) (by decide),
    (C7_lines_coercion (demoWorld [])
      (request "/tmp/app.log" (some (.string "0")) none none)).2.2.2.2.2.1 "0" 0
        (by decide) (by decide) (by decide),
    (C7_lines_coercion (demoWorld [])
      (request "/tmp/app.log" (some (.float32 (.finite 1 (-1)))) none none)).2.2.2.1
        (.finite 1 (-1)) (by decide) (by decide) (Or.inr (by decide)),
    (C7_lines_coercion (demoWorld []) (request "/tmp/app.log" none none none)).1 (by decide)⟩

/-- C8 fails on the code: a tailer that stops with a read error after delivering two lines,
and a tailer that delivers a record carrying an error, both end in a success result built
from the texts read, because the handler reads neither the tailer's error nor a record's. -/
theorem C8_read_error_still_success :
    Handler (demoWorldTail stoppedTail) (request "/tmp/app.log" none none none)
      = (.returned (.text { file := "/tmp/app.log", lines := ["a", "b"], line_count := 2,
                            filter := "", regex := "" }),
          [.stat "/tmp/app.log", .tailFile "/tmp/app.log"]) ∧
    stoppedTail.Err ≠ none ∧
    Handler (demoWorldTail errRecordTail) (request "/tmp/app.log" none none none)
      = (.returned (.text { file := "/tmp/app.log", lines := ["a", "Too much log activity"],
                            line_count := 2, filter := "", regex := "" }),
          [.stat "/tmp/app.log", .tailFile "/tmp/app.log"]) := by
  decide

end logs

namespace logs

end logs

namespace nvidia

/-! ## Claims about the GPU handler -/

/-- C9 as the spec states it fails: for a device whose `GetName` fails, the operation
succeeds but the `name` field is present in the device's entry (holding the empty string the
getter returned), not absent. -/
theorem C9_counterexample_failed_getter_field_present :
    namelessDevice.GetName.2 ≠ SUCCESS ∧
    ∃ entry : Entry, Handler (demoWorld 0 1 []) = .text [entry] ∧
      entry.lookup "name" = some (.string "") := by
  refine ⟨by decide, Handler.entry namelessDevice, by decide, by decide⟩

/-- C9, amended: getter failures never fail the operation and never remove a field.  When
initialisation, the device count and every handle lookup below the count succeed, the
handler returns a success result with one entry per device, built from the values the
getters returned whatever their return codes; every entry has all twelve keys; and the
handler returns an error result exactly when initialisation, the device count or a handle
lookup fails. -/
theorem C9_getter_failures_keep_fields (w : World) :
    (¬ enumerationFails w →
      Handler w = .text ((List.range w.DeviceGetCount.1.toNat).map
        (fun k : Nat => Handler.entry (w.DeviceGetHandleByIndex (k : Int)).1))) ∧
    (∀ dev : Device, (Handler.entry dev).map Prod.fst = entryKeys) ∧
    ((∃ text, Handler w = .error text) ↔ enumerationFails w) := by
  have hok : ¬ enumerationFails w →
      Handler w = .text ((List.range w.DeviceGetCount.1.toNat).map
        (fun k : Nat => Handler.entry (w.DeviceGetHandleByIndex (k : Int)).1)) := by
    intro hno
    simp only [enumerationFails, not_or, not_exists, not_and, not_not] at hno
    obtain ⟨hinit, hcount, hhandles⟩ := hno
    have hloop := loop_ok w w.DeviceGetCount.1.toNat 0 []
      (by intro j hj; simpa using hhandles j hj)
    simp only [Handler, hinit, hcount, ne_eq, not_true_eq_false, if_false, hloop]
    simp
  refine ⟨hok, fun dev => rfl, ?_, ?_⟩
  · intro herr
    by_contra hno
    obtain ⟨text, ht⟩ := herr
    rw [hok hno] at ht
    cases ht
  · intro hfail
    by_cases hinit : w.Init = SUCCESS
    · by_cases hcount : w.DeviceGetCount.2 = SUCCESS
      · have hex : ∃ j : Nat, j < w.DeviceGetCount.1.toNat ∧
            (w.DeviceGetHandleByIndex ((0 : Int) + j)).2 ≠ SUCCESS := by
          rcases hfail with h | h | ⟨k, hk, hbad⟩
          · exact absurd hinit h
          · exact absurd hcount h
          · exact ⟨k, hk, by simpa using hbad⟩
        obtain ⟨text, ht⟩ := loop_error w _ 0 [] hex
        exact ⟨text, by
          simp only [Handler, hinit, hcount, ne_eq, not_true_eq_false, if_false, ht]⟩
      · have hres : Handler w
            = .error ("Failed to get device count: " ++ w.ErrorString w.DeviceGetCount.2) := by
          simp only [Handler, hinit, hcount, ne_eq, not_true_eq_false, not_false_eq_true,
            if_false, if_true]
        exact ⟨_, hres⟩
    · have hres : Handler w = .error ("Failed to initialize NVML: " ++ w.ErrorString w.Init) := by
        simp only [Handler, hinit, ne_eq, not_false_eq_true, if_true]
      exact ⟨_, hres⟩

/-- Witness of C9: two devices whose name getter fails give two full entries; a failing
handle lookup at index 1 gives an error result. -/
theorem C9_getter_failures_keep_fields_witness :
    Handler (demoWorld 0 2 [])
      = .text [Handler.entry namelessDevice, Handler.entry namelessDevice] ∧
    ∃ text, Handler (demoWorld 0 2 [1]) = .error text := by
  have h := C9_getter_failures_keep_fields (demoWorld 0 2 [])
  have h2 := C9_getter_failures_keep_fields (demoWorld 0 2 [1])
  exact ⟨(h.1 (by decide)).trans (by decide), h2.2.2.2 (by decide)⟩

end nvidia
